import Mathlib

/-!
Shallow embedding of the rule-based clinical information-extraction
pipeline of `models/summarizer.py` (class `MedicalReportSummarizer`),
together with theorems settling the specification claims.

Text is modelled as `List Char` internally (the public entry points take
`String`).  The regular-expression idioms of the source are embedded as
explicit backtracking scanners that mirror Python `re` semantics
(leftmost search, greedy classes with backtracking, lazy captures,
ordered alternation, `re.IGNORECASE` case folding).

Modelling boundary: case folding and the `\d` digit class are modelled
for ASCII only; the source's Python engine additionally folds non-ASCII
letters and accepts non-ASCII Unicode decimal digits, which no claim
exercises.  Python's `\s` class and `str.strip` whitespace set is
modelled in full (it is the same set for both).
-/

/-- ASCII decimal digit, the embedding of the `\d` class (ASCII part). -/
def isDigitA (c : Char) : Bool := 48 ≤ c.toNat && c.toNat ≤ 57

/-- Python whitespace: the exact character set matched by `\s` in `str`
patterns and stripped by `str.strip()`. -/
def isSpacePy (c : Char) : Bool :=
  c.toNat == 32 || (9 ≤ c.toNat && c.toNat ≤ 13) ||
  (28 ≤ c.toNat && c.toNat ≤ 31) || c.toNat == 133 || c.toNat == 160 ||
  c.toNat == 5760 || (8192 ≤ c.toNat && c.toNat ≤ 8202) ||
  c.toNat == 8232 || c.toNat == 8233 || c.toNat == 8239 ||
  c.toNat == 8287 || c.toNat == 12288

/-- The `[:\s]` character class used after every heading keyword. -/
def isColonSpace (c : Char) : Bool := c == ':' || isSpacePy c

/-- ASCII letter, the `[A-Za-z]` class. -/
def isAsciiAlpha (c : Char) : Bool :=
  (65 ≤ c.toNat && c.toNat ≤ 90) || (97 ≤ c.toNat && c.toNat ≤ 122)

/-- The `[A-Z0-9]` class under `re.IGNORECASE` (so letters of both cases). -/
def isAlphaNum (c : Char) : Bool := isAsciiAlpha c || isDigitA c

/-- The `[A-Za-z\s,]` class of the patient-name capture. -/
def isNameCls (c : Char) : Bool := isAsciiAlpha c || isSpacePy c || c == ','

/-- ASCII lower-casing, the embedding of Python case folding. -/
def lowerCh (c : Char) : Char :=
  if 65 ≤ c.toNat ∧ c.toNat ≤ 90 then Char.ofNat (c.toNat + 32) else c

/-- ASCII upper-casing (used by `str.title()`). -/
def upperCh (c : Char) : Char :=
  if 97 ≤ c.toNat ∧ c.toNat ≤ 122 then Char.ofNat (c.toNat - 32) else c

/-- `needle` is a leading sequence of `hay` (exact characters). -/
def startsWithL : List Char → List Char → Bool
  | [], _ => true
  | _ :: _, [] => false
  | a :: as, b :: bs => a == b && startsWithL as bs

/-- Python's `needle in hay` substring test. -/
def containsL (needle : List Char) : List Char → Bool
  | [] => startsWithL needle []
  | c :: cs => startsWithL needle (c :: cs) || containsL needle cs

/-- `str.strip()`: remove Python whitespace from both ends. -/
def pyStrip (cs : List Char) : List Char :=
  ((cs.dropWhile isSpacePy).reverse.dropWhile isSpacePy).reverse

/-- `str.lower()` character-wise (ASCII model). -/
def lowerL (cs : List Char) : List Char := cs.map lowerCh

/-- `str.title()`: upper-case a letter after a non-letter, lower-case a
letter after a letter (ASCII model; `prev` records whether the previous
character was a letter). -/
def pyTitleAux (prev : Bool) : List Char → List Char
  | [] => []
  | c :: cs =>
    (if isAsciiAlpha c then (if prev then lowerCh c else upperCh c) else c)
      :: pyTitleAux (isAsciiAlpha c) cs

def pyTitleS (s : String) : String := String.mk (pyTitleAux false s.toList)

def lowerS (s : String) : String := String.mk (lowerL s.toList)

/-! ### Matching combinators

These embed the `re` constructs actually used by the source.  All of
them thread an explicit continuation so that greedy constructs can
backtrack exactly as the Python engine does. -/

/-- Match a literal case-insensitively (`re.IGNORECASE`), returning the
remaining input. -/
def dropCI : List Char → List Char → Option (List Char)
  | [], cs => some cs
  | _ :: _, [] => none
  | l :: ls, c :: cs => if lowerCh c == lowerCh l then dropCI ls cs else none

/-- Like `dropCI` but also return the consumed characters as they appear
in the input (a capturing group keeps the original casing). -/
def takeCI : List Char → List Char → Option (List Char × List Char)
  | [], cs => some ([], cs)
  | _ :: _, [] => none
  | l :: ls, c :: cs =>
    if lowerCh c == lowerCh l then
      match takeCI ls cs with
      | some (w, rest) => some (c :: w, rest)
      | none => none
    else none

def startsWithCI (lit : List Char) (cs : List Char) : Bool := (dropCI lit cs).isSome

/-- Greedy `cls*` followed by continuation `k`, with backtracking: the
longest run is tried first, then ever shorter ones down to the empty
run.  `racc` holds the characters consumed so far, reversed. -/
def greedyStarBT (cls : Char → Bool) (k : List Char → List Char → Option α) :
    List Char → List Char → Option α
  | racc, [] => k racc.reverse []
  | racc, c :: rest =>
    if cls c then
      match greedyStarBT cls k (c :: racc) rest with
      | some r => some r
      | none => k racc.reverse (c :: rest)
    else k racc.reverse (c :: rest)

/-- Greedy `cls+` followed by continuation `k`, with backtracking (at
least one character is consumed). -/
def greedyPlusBT (cls : Char → Bool) (k : List Char → List Char → Option α) :
    List Char → Option α
  | [] => none
  | c :: rest => if cls c then greedyStarBT cls k [c] rest else none

/-- Lazy `cls*?` bounded by a terminator test: extend one character at a
time, checking the terminator before each extension, exactly like a lazy
group followed by the terminator at the end of a pattern. -/
def lazyUntilAux (cls : Char → Bool) (term : List Char → Bool) :
    List Char → List Char → Option (List Char)
  | racc, [] => if term [] then some racc.reverse else none
  | racc, c :: rest =>
    if term (c :: rest) then some racc.reverse
    else if cls c then lazyUntilAux cls term (c :: racc) rest
    else none

def lazyStarUntil (cls : Char → Bool) (term : List Char → Bool)
    (cs : List Char) : Option (List Char) :=
  lazyUntilAux cls term [] cs

/-- Lazy `cls+?` bounded by a terminator test (at least one character). -/
def lazyPlusUntil (cls : Char → Bool) (term : List Char → Bool) :
    List Char → Option (List Char)
  | [] => none
  | c :: rest => if cls c then lazyUntilAux cls term [c] rest else none

/-- `re.search`: try the position matcher at every start position, left
to right. -/
def searchFrom (m : List Char → Option α) : List Char → Option α
  | [] => m []
  | c :: cs =>
    match m (c :: cs) with
    | some r => some r
    | none => searchFrom m cs

/-- `re.finditer`/`re.findall`: repeatedly search, continuing after the
end of each match.  Every pattern embedded with this consumes at least
one character per match, so `fuel = length + 1` is always sufficient. -/
def findAll (m : List Char → Option (α × List Char)) : Nat → List Char → List α
  | 0, _ => []
  | fuel + 1, cs =>
    match searchFrom m cs with
    | none => []
    | some (a, rest) => a :: findAll m fuel rest

/-- `re.split`: cut the input at every non-overlapping leftmost match of
the delimiter matcher `m` (which returns the input remaining after the
delimiter).  `racc` is the reversed current piece. -/
def reSplit (m : List Char → Option (List Char)) :
    Nat → List Char → List Char → List (List Char)
  | 0, racc, cs => [racc.reverse ++ cs]
  | fuel + 1, racc, cs =>
    match m cs with
    | some rest => racc.reverse :: reSplit m fuel [] rest
    | none =>
      match cs with
      | [] => [racc.reverse]
      | c :: cs' => reSplit m fuel (c :: racc) cs'

/-- The `.` class under `re.DOTALL`: any character, newlines included. -/
def anyCh (_ : Char) : Bool := true

/-- The part of the input before the first position where `p` matches
(`re.split(...)[0]` for a delimiter that tests at a position). -/
def takeBeforeMatch (p : List Char → Bool) : List Char → List Char
  | [] => []
  | c :: cs => if p (c :: cs) then [] else c :: takeBeforeMatch p cs

/-- Split on a literal newline (`str.split('\n')`). -/
def splitNl (cs : List Char) : List (List Char) :=
  (cs.splitOn '\n')

/-! ### Data model (`@dataclass PatientInfo`, `@dataclass MedicalSummary`) -/

structure PatientInfo where
  name : String := ""
  age : String := ""
  gender : String := ""
  mrn : String := ""
  dob : String := ""
deriving DecidableEq, Repr

structure MedicalSummary where
  patient_info : PatientInfo
  chief_complaint : String
  diagnosis : List String
  medications : List String
  vital_signs : List (String × String)
  procedures : List String
  allergies : List String
  lab_results : List String
  recommendations : List String
  critical_flags : List String
deriving DecidableEq, Repr

/-! ### `extract_patient_info` -/

/-- Terminator `(?:\n|Age|DOB|MRN)` of the name patterns (ignorecase). -/
def nameTerm (cs : List Char) : Bool :=
  (match cs with | '\n' :: _ => true | _ => false) ||
  startsWithCI "Age".toList cs || startsWithCI "DOB".toList cs ||
  startsWithCI "MRN".toList cs

/-- Position matcher for `Heading[:\s]+([A-Za-z\s,]+?)(?:\n|Age|DOB|MRN)`. -/
def nameAt (heading : List Char) (cs : List Char) : Option (List Char) :=
  match dropCI heading cs with
  | none => none
  | some r1 =>
    greedyPlusBT isColonSpace (fun _ r2 => lazyPlusUntil isNameCls nameTerm r2) r1

/-- Position matcher for `Age[:\s]+(\d+)`. -/
def ageAt (cs : List Char) : Option (List Char) :=
  match dropCI "Age".toList cs with
  | none => none
  | some r1 =>
    greedyPlusBT isColonSpace
      (fun _ r2 => greedyPlusBT isDigitA (fun d _ => some d) r2) r1

/-- Position matcher for `(?:Gender|Sex)[:\s]+(Male|Female|M|F)`: the
heading alternatives are disjoint at their first character, and the
captured alternative keeps the casing found in the text. -/
def genderAt (cs : List Char) : Option (List Char) :=
  match (match dropCI "Gender".toList cs with
         | some r => some r
         | none => dropCI "Sex".toList cs) with
  | none => none
  | some r1 =>
    greedyPlusBT isColonSpace (fun _ r2 =>
      match takeCI "Male".toList r2 with
      | some (g, _) => some g
      | none =>
        match takeCI "Female".toList r2 with
        | some (g, _) => some g
        | none =>
          match takeCI "M".toList r2 with
          | some (g, _) => some g
          | none =>
            match takeCI "F".toList r2 with
            | some (g, _) => some g
            | none => none) r1

/-- Position matcher for `MRN[:\s]+([A-Z0-9]+)`. -/
def mrnAt (cs : List Char) : Option (List Char) :=
  match dropCI "MRN".toList cs with
  | none => none
  | some r1 =>
    greedyPlusBT isColonSpace
      (fun _ r2 => greedyPlusBT isAlphaNum (fun w _ => some w) r2) r1

def extract_patient_info (text : String) : PatientInfo :=
  let cs := text.toList
  let name :=
    match searchFrom (nameAt "Patient".toList) cs with
    | some g => String.mk (pyStrip g)
    | none =>
      match searchFrom (nameAt "Name".toList) cs with
      | some g => String.mk (pyStrip g)
      | none => ""
  { name := name
    age := (match searchFrom ageAt cs with
            | some d => String.mk d
            | none => "")
    gender := (match searchFrom genderAt cs with
               | some g => String.mk g
               | none => "")
    mrn := (match searchFrom mrnAt cs with
            | some w => String.mk w
            | none => "") }

/-! ### `extract_vital_signs` -/

/-- Position matcher for `BP[:\s]+(\d+/\d+)`, returning the systolic and
diastolic digit runs. -/
def bpAt (cs : List Char) : Option (List Char × List Char) :=
  match dropCI "BP".toList cs with
  | none => none
  | some r1 =>
    greedyPlusBT isColonSpace (fun _ r2 =>
      greedyPlusBT isDigitA (fun sys r3 =>
        match r3 with
        | '/' :: r4 =>
          greedyPlusBT isDigitA (fun dia _ => some (sys, dia)) r4
        | _ => none) r2) r1

/-- Position matcher for `HEAD[:\s]+(\d+)` (heart rate, respiratory rate). -/
def intVitalAt (heading : List Char) (cs : List Char) : Option (List Char) :=
  match dropCI heading cs with
  | none => none
  | some r1 =>
    greedyPlusBT isColonSpace
      (fun _ r2 => greedyPlusBT isDigitA (fun d _ => some d) r2) r1

/-- Position matcher for `Temp[:\s]+(\d+\.?\d*)`. -/
def tempAt (cs : List Char) : Option (List Char) :=
  match dropCI "Temp".toList cs with
  | none => none
  | some r1 =>
    greedyPlusBT isColonSpace (fun _ r2 =>
      greedyPlusBT isDigitA (fun d1 r3 =>
        match r3 with
        | '.' :: r4 =>
          greedyStarBT isDigitA (fun d2 _ => some (d1 ++ '.' :: d2)) [] r4
        | _ => some d1) r2) r1

/-- Position matcher for `O2 Sat[:\s]+(\d+%)` (the capture keeps the `%`). -/
def o2At (cs : List Char) : Option (List Char) :=
  match dropCI "O2 Sat".toList cs with
  | none => none
  | some r1 =>
    greedyPlusBT isColonSpace (fun _ r2 =>
      greedyPlusBT isDigitA (fun d r3 =>
        match r3 with
        | '%' :: _ => some (d ++ ['%'])
        | _ => none) r2) r1

/-- One conditional insertion into the vitals dict. -/
def optEntry (key : String) : Option String → List (String × String)
  | some v => [(key, v)]
  | none => []

/-- The mojibake degree suffix appended to temperatures, exactly the two
characters found in the source literal. -/
def tempSuffix : String := String.mk [Char.ofNat 0xC2, Char.ofNat 0xB0, 'F']

def extract_vital_signs (text : String) : List (String × String) :=
  optEntry "Blood Pressure"
      ((searchFrom bpAt text.toList).map (fun p => String.mk (p.1 ++ '/' :: p.2))) ++
    (optEntry "Heart Rate"
        ((searchFrom (intVitalAt "HR".toList) text.toList).map
          (fun d => String.mk d ++ " bpm")) ++
      (optEntry "Temperature"
          ((searchFrom tempAt text.toList).map (fun d => String.mk d ++ tempSuffix)) ++
        (optEntry "Respiratory Rate"
            ((searchFrom (intVitalAt "RR".toList) text.toList).map
              (fun d => String.mk d ++ " /min")) ++
          optEntry "Oxygen Saturation" ((searchFrom o2At text.toList).map String.mk))))

/-! ### `extract_chief_complaint` -/

/-- Does the input start with two newlines (`\n\n` terminator)? -/
def startsNlNl (cs : List Char) : Bool :=
  match cs with
  | '\n' :: '\n' :: _ => true
  | _ => false

def ccTerm1 (cs : List Char) : Bool :=
  startsNlNl cs || startsWithCI "History of Present".toList cs

def ccTerm2 (cs : List Char) : Bool :=
  startsNlNl cs || startsWithCI "History".toList cs

def ccTerm3 (cs : List Char) : Bool :=
  startsNlNl cs || startsWithCI "HPI".toList cs

/-- Position matcher for `HEAD[:\s]+(.*?)(?:TERM)` with `DOTALL`. -/
def sectionAt (heading : List Char) (term : List Char → Bool)
    (cs : List Char) : Option (List Char) :=
  match dropCI heading cs with
  | none => none
  | some r1 =>
    greedyPlusBT isColonSpace (fun _ r2 => lazyStarUntil anyCh term r2) r1

def extract_chief_complaint (text : String) : String :=
  let cs := text.toList
  match searchFrom (sectionAt "Chief Complaint".toList ccTerm1) cs with
  | some g => String.mk (pyStrip g)
  | none =>
    match searchFrom (sectionAt "Presenting Problem".toList ccTerm2) cs with
    | some g => String.mk (pyStrip g)
    | none =>
      match searchFrom (sectionAt "CC".toList ccTerm3) cs with
      | some g => String.mk (pyStrip g)
      | none => ""

/-! ### `clean_diagnosis_text` -/

/-- The `[-â€¢]` class of the source (a dash and the three characters of
the mojibake-encoded bullet, U+00E2, U+20AC, U+00A2). -/
def isBulletCls (c : Char) : Bool :=
  c == '-' || c.toNat == 0xE2 || c.toNat == 0x20AC || c.toNat == 0xA2

/-- The `[-â€“]` class of the status-clause separator (a dash and the
three characters of the mojibake-encoded en dash, U+00E2, U+20AC,
U+201C). -/
def isDashCls (c : Char) : Bool :=
  c == '-' || c.toNat == 0xE2 || c.toNat == 0x20AC || c.toNat == 0x201C

/-- Alternative `\n\s*\d+\.` of the split delimiter, applied after the
newline. -/
def diagDelimA (r : List Char) : Option (List Char) :=
  greedyStarBT isSpacePy (fun _ r2 =>
    greedyPlusBT isDigitA (fun _ r3 =>
      match r3 with
      | '.' :: r4 => some r4
      | _ => none) r2) [] r

/-- Alternative `\n\s*[-â€¢]` of the split delimiter, applied after the
newline. -/
def diagDelimB (r : List Char) : Option (List Char) :=
  greedyStarBT isSpacePy (fun _ r2 =>
    match r2 with
    | c :: r3 => if isBulletCls c then some r3 else none
    | [] => none) [] r

/-- Alternative `\n(?=\d+\.)` of the split delimiter: only the newline is
consumed, the digits and dot are a lookahead. -/
def diagDelimC (r : List Char) : Option (List Char) :=
  greedyPlusBT isDigitA (fun _ r3 =>
    match r3 with
    | '.' :: _ => some r
    | _ => none) r

/-- Split delimiter `\n\s*\d+\.|\n\s*[-â€¢]|\n(?=\d+\.)` of
`clean_diagnosis_text`, alternatives tried in source order. -/
def diagDelim (cs : List Char) : Option (List Char) :=
  match cs with
  | '\n' :: r =>
    (match diagDelimA r with
     | some rest => some rest
     | none =>
       match diagDelimB r with
       | some rest => some rest
       | none => diagDelimC r)
  | _ => none

/-- `re.sub(r'^\d+\.\s*', '', item)`: anchored, so at most one removal. -/
def stripNumDot (cs : List Char) : List Char :=
  match greedyPlusBT isDigitA (fun _ r =>
    match r with
    | '.' :: r2 => some r2
    | _ => none) cs with
  | some r2 => (r2.dropWhile isSpacePy)
  | none => cs

/-- `re.sub(r'^[-â€¢]\s*', '', item)`. -/
def stripBullet (cs : List Char) : List Char :=
  match cs with
  | c :: r => if isBulletCls c then r.dropWhile isSpacePy else cs
  | [] => []

def exclude_words : List String :=
  ["adjustment", "management", "follow-up", "monitoring", "continued",
   "stable", "controlled", "improved", "resolved", "plan", "care",
   "treatment", "therapy", "medication", "drug", "well-controlled"]

def medical_indicators : List String :=
  ["syndrome", "disease", "disorder", "condition", "emia", "itis",
   "osis", "pathy", "cancer", "tumor", "failure", "infarction",
   "pneumonia", "diabetes", "hypertension", "coronary", "acute"]

def containsAny (ws : List String) (hay : List Char) : Bool :=
  ws.any (fun w => containsL w.toList hay)

/-- The status-clause separator
`[-â€“]\s*(?:stable|controlled|improved|management|adjustment)` tested at
a position (this split is case-sensitive: `re.split` is called without
flags). -/
def truncDelim (cs : List Char) : Bool :=
  match cs with
  | c :: r =>
    isDashCls c &&
    (greedyStarBT isSpacePy (fun _ r2 =>
      if startsWithL "stable".toList r2 || startsWithL "controlled".toList r2 ||
         startsWithL "improved".toList r2 || startsWithL "management".toList r2 ||
         startsWithL "adjustment".toList r2
      then some () else none) [] r).isSome
  | [] => false

/-- The per-candidate body of the `clean_diagnosis_text` loop: `none`
means the candidate contributes nothing. -/
def processDiagItem (raw : List Char) : Option String :=
  let item0 := pyStrip raw
  if item0.length < 5 then none
  else
    let item := stripBullet (stripNumDot item0)
    let il := lowerL item
    if containsAny exclude_words il && !containsAny medical_indicators il then none
    else
      let dp := pyStrip (takeBeforeMatch truncDelim item)
      if 3 < dp.length then some (String.mk dp) else none

def clean_diagnosis_text (text : String) : List String :=
  let cs := text.toList
  (reSplit diagDelim (cs.length + 1) [] cs).filterMap processDiagItem

/-! ### `extract_diagnoses` -/

def diagTerm1 (cs : List Char) : Bool :=
  startsNlNl cs || startsWithCI "Plan".toList cs ||
  startsWithCI "Medications".toList cs || startsWithCI "Treatment".toList cs

def diagTerm2 (cs : List Char) : Bool :=
  startsNlNl cs || startsWithCI "Plan".toList cs ||
  startsWithCI "Recommendations".toList cs

def diagTerm4 (cs : List Char) : Bool :=
  startsNlNl cs || startsWithCI "Plan".toList cs

/-- `[es]*` under ignorecase. -/
def isEorS (c : Char) : Bool :=
  lowerCh c == 'e' || lowerCh c == 's'

/-- `Diagnosis[es]*[:\s]+(.*?)(?:\n\n|Plan|Medications|Treatment)`. -/
def diagCore (cs : List Char) : Option (List Char) :=
  match dropCI "Diagnosis".toList cs with
  | none => none
  | some r1 =>
    greedyStarBT isEorS (fun _ r2 =>
      greedyPlusBT isColonSpace
        (fun _ r3 => lazyStarUntil anyCh diagTerm1 r3) r2) [] r1

/-- Pattern 1, `(?:Primary\s+)?Diagnosis[es]*[:\s]+(...)`: the greedy
optional prefix is tried first, then dropped. -/
def diagAt1 (cs : List Char) : Option (List Char) :=
  match dropCI "Primary".toList cs with
  | some r1 =>
    (match greedyPlusBT isSpacePy (fun _ r2 => diagCore r2) r1 with
     | some g => some g
     | none => diagCore cs)
  | none => diagCore cs

/-- Pattern 2, `(?:Final\s+)?Impression[:\s]+(...)`. -/
def diagAt2 (cs : List Char) : Option (List Char) :=
  let core := fun (r : List Char) =>
    match dropCI "Impression".toList r with
    | none => none
    | some r1 =>
      greedyPlusBT isColonSpace
        (fun _ r2 => lazyStarUntil anyCh diagTerm2 r2) r1
  match dropCI "Final".toList cs with
  | some r1 =>
    (match greedyPlusBT isSpacePy (fun _ r2 => core r2) r1 with
     | some g => some g
     | none => core cs)
  | none => core cs

/-- Pattern 3, `Assessment[:\s]+(.*?)(?:\n\n|Plan|Treatment)`. -/
def diagAt3 (cs : List Char) : Option (List Char) :=
  sectionAt "Assessment".toList diagTerm1 cs

/-- Pattern 4, `ICD[:\s]*(?:10|9)[:\s]+(.*?)(?:\n\n|Plan)`. -/
def diagAt4 (cs : List Char) : Option (List Char) :=
  match dropCI "ICD".toList cs with
  | none => none
  | some r1 =>
    greedyStarBT isColonSpace (fun _ r2 =>
      match r2 with
      | '1' :: '0' :: r3 =>
        greedyPlusBT isColonSpace
          (fun _ r4 => lazyStarUntil anyCh diagTerm4 r4) r3
      | '9' :: r3 =>
        greedyPlusBT isColonSpace
          (fun _ r4 => lazyStarUntil anyCh diagTerm4 r4) r3
      | _ => none) [] r1

def extract_diagnoses (text : String) : List String :=
  let cs := text.toList
  let cand :=
    match searchFrom diagAt1 cs with
    | some g => clean_diagnosis_text (String.mk (pyStrip g))
    | none =>
      match searchFrom diagAt2 cs with
      | some g => clean_diagnosis_text (String.mk (pyStrip g))
      | none =>
        match searchFrom diagAt3 cs with
        | some g => clean_diagnosis_text (String.mk (pyStrip g))
        | none =>
          match searchFrom diagAt4 cs with
          | some g => clean_diagnosis_text (String.mk (pyStrip g))
          | none => []
  cand.take 10

/-! ### `extract_medications` -/

def medTerm (cs : List Char) : Bool :=
  startsNlNl cs || startsWithCI "Allergies".toList cs ||
  startsWithCI "Procedures".toList cs

/-- `[:\s]+(.*?)(?:\n\n|Allergies|Procedures)` after a medication
heading. -/
def medCore (cs : List Char) : Option (List Char) :=
  greedyPlusBT isColonSpace (fun _ r2 => lazyStarUntil anyCh medTerm r2) cs

/-- Pattern 1, `Medications?[:\s]+(...)`: the greedy optional `s?` is
tried first, then dropped. -/
def medAt1 (cs : List Char) : Option (List Char) :=
  match dropCI "Medications".toList cs with
  | some r1 =>
    (match medCore r1 with
     | some g => some g
     | none =>
       match dropCI "Medication".toList cs with
       | some r1b => medCore r1b
       | none => none)
  | none =>
    match dropCI "Medication".toList cs with
    | some r1b => medCore r1b
    | none => none

/-- Pattern 2, `Current Medications[:\s]+(...)`. -/
def medAt2 (cs : List Char) : Option (List Char) :=
  match dropCI "Current Medications".toList cs with
  | none => none
  | some r1 => medCore r1

/-- Pattern 3, `Rx[:\s]+(...)`. -/
def medAt3 (cs : List Char) : Option (List Char) :=
  match dropCI "Rx".toList cs with
  | none => none
  | some r1 => medCore r1

/-- The greedy group star `(?:\s+[A-Za-z]+)*` of the dosage pattern with
full backtracking: the most iterations are tried first, and inside each
iteration the whitespace and letter runs are themselves greedy.  `racc`
accumulates the consumed characters reversed; each iteration consumes at
least two characters so `fuel = length` is always sufficient. -/
def medWordsBT (k : List Char → List Char → Option α) :
    Nat → List Char → List Char → Option α
  | 0, racc, cs => k racc.reverse cs
  | fuel + 1, racc, cs =>
    match greedyPlusBT isSpacePy (fun sp r1 =>
      greedyPlusBT isAsciiAlpha (fun w r2 =>
        medWordsBT k fuel (w.reverse ++ sp.reverse ++ racc) r2) r1) cs with
    | some r => some r
    | none => k racc.reverse cs

/-- The unit alternation `(?:mg|mcg|g)` (case-sensitive: `re.findall` is
called without flags). -/
def unitSuffix (cs : List Char) : Option (List Char) :=
  match cs with
  | 'm' :: 'g' :: r => some r
  | 'm' :: 'c' :: 'g' :: r => some r
  | 'g' :: r => some r
  | _ => none

/-- Position matcher for the dosage pattern
`([A-Za-z]+(?:\s+[A-Za-z]+)*)\s+\d+(?:mg|mcg|g)`; returns the captured
name and the input after the full match. -/
def medDoseAt (cs : List Char) : Option (List Char × List Char) :=
  greedyPlusBT isAsciiAlpha (fun w1 r1 =>
    medWordsBT (fun ws r2 =>
      greedyPlusBT isSpacePy (fun _ r3 =>
        greedyPlusBT isDigitA (fun _ r4 =>
          match unitSuffix r4 with
          | some r5 => some (w1 ++ ws, r5)
          | none => none) r3) r2) r1.length [] r1) cs

/-- `re.match(r'^\d+\.', line)` as a Bool. -/
def startsNumDot (cs : List Char) : Bool :=
  (greedyPlusBT isDigitA (fun _ r =>
    match r with
    | '.' :: _ => some ()
    | _ => none) cs).isSome

/-- The line-based path of `extract_medications`: split on newlines,
strip, keep non-empty lines that do not begin with a numbered marker. -/
def medLineKept (medText : List Char) : List String :=
  (splitNl medText).filterMap (fun raw =>
    let l := pyStrip raw
    if l ≠ [] ∧ startsNumDot l = false then some (String.mk l) else none)

/-- Both paths on the matched section text: the dosage-pattern scan
followed by the kept lines (`medications.extend(med_items)` then the
line loop). -/
def medFromSection (medText : List Char) : List String :=
  (findAll medDoseAt (medText.length + 1) medText).map String.mk ++
    medLineKept medText

def extract_medications (text : String) : List String :=
  let cs := text.toList
  let meds :=
    match searchFrom medAt1 cs with
    | some g => medFromSection g
    | none =>
      match searchFrom medAt2 cs with
      | some g => medFromSection g
      | none =>
        match searchFrom medAt3 cs with
        | some g => medFromSection g
        | none => []
  meds.take 15

/-! ### `extract_lab_results` -/

/-- Try the capturing alternation of analyte names in order, keeping the
casing found in the text. -/
def takeCIalts : List String → List Char → Option (List Char × List Char)
  | [], _ => none
  | alt :: alts, cs =>
    match takeCI alt.toList cs with
    | some r => some r
    | none => takeCIalts alts cs

/-- Value pattern `(\d+\.?\d*)` (used when `dec` is true) or `(\d+)`. -/
def labValue (dec : Bool) (cs : List Char) : Option (List Char × List Char) :=
  greedyPlusBT isDigitA (fun d1 r3 =>
    if dec then
      match r3 with
      | '.' :: r4 =>
        greedyStarBT isDigitA (fun d2 r5 => some (d1 ++ '.' :: d2, r5)) [] r4
      | _ => some (d1, r3)
    else some (d1, r3)) cs

/-- Position matcher for `(ALT1|ALT2)[:\s]+(VALUE)`, producing the
`f"{name}: {value}"` output string and the rest of the input. -/
def labAt (alts : List String) (dec : Bool) (cs : List Char) :
    Option (String × List Char) :=
  match takeCIalts alts cs with
  | none => none
  | some (name, r1) =>
    greedyPlusBT isColonSpace (fun _ r2 =>
      match labValue dec r2 with
      | some (v, rest) => some (String.mk (name ++ ':' :: ' ' :: v), rest)
      | none => none) r1

/-- The fixed analyte catalog, in source order, with the decimal flag of
each value pattern. -/
def lab_patterns : List (List String × Bool) :=
  [(["Hemoglobin", "Hgb"], true),
   (["WBC", "White Blood Cell"], true),
   (["Glucose"], false),
   (["Creatinine"], true),
   (["BUN"], false),
   (["Cholesterol"], false)]

def extract_lab_results (text : String) : List String :=
  let cs := text.toList
  (lab_patterns.map (fun p => findAll (labAt p.1 p.2) (cs.length + 1) cs)).flatten

/-! ### `identify_critical_flags` -/

def critical_terms : List String :=
  ["critical", "urgent", "emergency", "acute", "severe",
   "chest pain", "shortness of breath", "stroke", "heart attack",
   "allergic reaction", "sepsis", "pneumonia"]

/-- The mojibake warning marker of the flag strings: the five characters
U+00E2, U+0161, U+00A0, U+00EF, U+00B8 found in the source literal,
followed by the space of the f-string. -/
def flagMark : String :=
  String.mk [Char.ofNat 0xE2, Char.ofNat 0x161, Char.ofNat 0xA0,
             Char.ofNat 0xEF, Char.ofNat 0xB8, ' ']

/-- The flag emitted for a matched critical term. -/
def vocabFlag (term : String) : String :=
  flagMark ++ pyTitleS term ++ " mentioned"

/-- The flag emitted for an out-of-range systolic pressure. -/
def abnormalBPFlag : String := flagMark ++ "Abnormal Blood Pressure"

/-- The vocabulary scan: one flag per critical term contained
(case-insensitively) in the document. -/
def vocabScan (text : List Char) : List String :=
  critical_terms.filterMap (fun t =>
    if containsL t.toList (lowerL text) then some (vocabFlag t) else none)

/-- Python `int()` on the digit body: digits with single underscores
allowed between digits (ASCII model). -/
def digitsValAux (acc : Nat) : List Char → Option Nat
  | [] => some acc
  | c :: r =>
    if isDigitA c then digitsValAux (10 * acc + (c.toNat - 48)) r
    else if c == '_' then
      match r with
      | c2 :: r2 =>
        if isDigitA c2 then digitsValAux (10 * acc + (c2.toNat - 48)) r2 else none
      | [] => none
    else none

def parseDigitsPy : List Char → Option Nat
  | [] => none
  | c :: r => if isDigitA c then digitsValAux (c.toNat - 48) r else none

/-- Python `int(str)`: surrounding whitespace, an optional single sign,
then a digit body; `none` models the `ValueError`. -/
def pyInt (cs : List Char) : Option Int :=
  match pyStrip cs with
  | [] => none
  | c :: r =>
    if c == '+' then (parseDigitsPy r).map (fun n => (n : Int))
    else if c == '-' then (parseDigitsPy r).map (fun n => -(n : Int))
    else (parseDigitsPy (c :: r)).map (fun n => (n : Int))

/-- `identify_critical_flags`: the vocabulary scan, then the threshold
check on the already-extracted blood pressure.  `int()` on a non-numeric
systolic string raises `ValueError`, modelled as `Except.error`. -/
def identify_critical_flags (text : String) (summary : MedicalSummary) :
    Except String (List String) :=
  match List.lookup "Blood Pressure" summary.vital_signs with
  | some bp =>
    if bp.toList.contains '/' then
      match pyInt (bp.toList.takeWhile (fun c => c != '/')) with
      | some systolic =>
        Except.ok (vocabScan text.toList ++
          (if 140 < systolic ∨ systolic < 90 then [abnormalBPFlag] else []))
      | none => Except.error "ValueError"
    else Except.ok (vocabScan text.toList)
  | none => Except.ok (vocabScan text.toList)

/-! ### `summarize_report` -/

def summarize_report (medical_report : String) : Except String MedicalSummary :=
  let s0 : MedicalSummary :=
    { patient_info := extract_patient_info medical_report
      chief_complaint := extract_chief_complaint medical_report
      diagnosis := extract_diagnoses medical_report
      medications := extract_medications medical_report
      vital_signs := extract_vital_signs medical_report
      procedures := []
      allergies := []
      lab_results := extract_lab_results medical_report
      recommendations := []
      critical_flags := [] }
  match identify_critical_flags medical_report s0 with
  | Except.ok fl => Except.ok { s0 with critical_flags := fl }
  | Except.error e => Except.error e

/-! ### Invariant lemmas for the combinators -/

theorem greedyStarBT_some {α} {cls : Char → Bool}
    {k : List Char → List Char → Option α} {P : α → Prop}
    (hk : ∀ w rest r, w ≠ [] → w.all cls = true → k w rest = some r → P r) :
    ∀ racc cs r, racc ≠ [] → racc.all cls = true →
      greedyStarBT cls k racc cs = some r → P r := by
  intro racc cs
  induction cs generalizing racc with
  | nil =>
    intro r hne hall h
    simp only [greedyStarBT] at h
    exact hk _ _ _ (by simpa using hne) (by simpa using hall) h
  | cons c rest ih =>
    intro r hne hall h
    by_cases hc : cls c
    · simp only [greedyStarBT, hc, if_true] at h
      rcases hrec : greedyStarBT cls k (c :: racc) rest with _ | r'
      · rw [hrec] at h
        exact hk _ _ _ (by simpa using hne) (by simpa using hall) h
      · rw [hrec] at h
        injection h with h2
        subst h2
        exact ih (c :: racc) _ (by simp) (by simp [hc, hall]) hrec
    · simp only [greedyStarBT, hc, if_false] at h
      exact hk _ _ _ (by simpa using hne) (by simpa using hall) h

theorem greedyPlusBT_some {α} {cls : Char → Bool}
    {k : List Char → List Char → Option α} {P : α → Prop}
    (hk : ∀ w rest r, w ≠ [] → w.all cls = true → k w rest = some r → P r) :
    ∀ cs r, greedyPlusBT cls k cs = some r → P r := by
  intro cs r h
  cases cs with
  | nil => simp [greedyPlusBT] at h
  | cons c rest =>
    simp only [greedyPlusBT] at h
    by_cases hc : cls c
    · rw [if_pos hc] at h
      exact greedyStarBT_some hk [c] rest r (by simp) (by simp [hc]) h
    · rw [if_neg hc] at h; cases h

theorem searchFrom_some {α} {m : List Char → Option α} {P : α → Prop}
    (hm : ∀ cs r, m cs = some r → P r) :
    ∀ cs r, searchFrom m cs = some r → P r := by
  intro cs
  induction cs with
  | nil => intro r h; exact hm _ _ h
  | cons c rest ih =>
    intro r h
    simp only [searchFrom] at h
    rcases hp : m (c :: rest) with _ | r'
    · rw [hp] at h; exact ih r h
    · rw [hp] at h; cases h; exact hm _ _ hp

theorem findAll_mem {α} {m : List Char → Option (α × List Char)} {P : α → Prop}
    (hm : ∀ cs a rest, m cs = some (a, rest) → P a) :
    ∀ fuel cs a, a ∈ findAll m fuel cs → P a := by
  intro fuel
  induction fuel with
  | zero => intro cs a h; simp [findAll] at h
  | succ n ih =>
    intro cs a h
    simp only [findAll] at h
    rcases hs : searchFrom m cs with _ | p
    · rw [hs] at h; simp at h
    · rw [hs] at h
      rcases List.mem_cons.mp h with h1 | h2
      · subst h1
        exact searchFrom_some (P := fun q : α × List Char => P q.1)
          (fun cs' r hr => by rcases r with ⟨a', rest'⟩; exact hm _ _ _ hr) _ _ hs
      · exact ih _ _ h2

theorem takeCI_lower :
    ∀ lit cs w rest, takeCI lit cs = some (w, rest) → lowerL w = lowerL lit := by
  intro lit
  induction lit with
  | nil => intro cs w rest h; simp [takeCI] at h; simp [h.1, lowerL]
  | cons l ls ih =>
    intro cs w rest h
    cases cs with
    | nil => simp [takeCI] at h
    | cons c cs' =>
      simp only [takeCI] at h
      by_cases hc : lowerCh c == lowerCh l
      · rw [if_pos hc] at h
        rcases ht : takeCI ls cs' with _ | ⟨w', rest'⟩
        · rw [ht] at h; cases h
        · rw [ht] at h
          cases h
          simp only [lowerL, List.map_cons]
          rw [eq_of_beq hc]
          exact congrArg _ (by simpa [lowerL] using ih cs' _ _ ht)
      · rw [if_neg hc] at h; cases h

/-! ### Digit parsing facts -/

/-- The numeric value of a digit run (what `int()` returns on it). -/
def digitsToNat (l : List Char) : Nat :=
  l.foldl (fun a c => 10 * a + (c.toNat - 48)) 0

theorem digit_not_space {c : Char} (h : isDigitA c = true) : isSpacePy c = false := by
  simp only [isDigitA, Bool.and_eq_true, decide_eq_true_eq] at h
  rw [← Bool.not_eq_true]
  intro hs
  simp only [isSpacePy, Bool.or_eq_true, Bool.and_eq_true, beq_iff_eq,
    decide_eq_true_eq] at hs
  omega

theorem digit_toNat_range {c : Char} (h : isDigitA c = true) :
    48 ≤ c.toNat ∧ c.toNat ≤ 57 := by
  simpa [isDigitA, Bool.and_eq_true, decide_eq_true_eq] using h

theorem digit_ne_slash {c : Char} (h : isDigitA c = true) : (c != '/') = true := by
  have hr := digit_toNat_range h
  simp only [bne_iff_ne, ne_eq]
  intro he
  subst he
  exact absurd hr (by decide)

theorem digit_ne_plus {c : Char} (h : isDigitA c = true) : (c == '+') = false := by
  have hr := digit_toNat_range h
  simp only [beq_eq_false_iff_ne, ne_eq]
  intro he
  subst he
  exact absurd hr (by decide)

theorem digit_ne_minus {c : Char} (h : isDigitA c = true) : (c == '-') = false := by
  have hr := digit_toNat_range h
  simp only [beq_eq_false_iff_ne, ne_eq]
  intro he
  subst he
  exact absurd hr (by decide)

theorem dropWhile_eq_self_of_head {p : Char → Bool} :
    ∀ {l : List Char}, (∀ c ∈ l, p c = false) → l.dropWhile p = l := by
  intro l h
  cases l with
  | nil => rfl
  | cons c t => simp [List.dropWhile, h c (by simp)]

theorem pyStrip_of_digits {l : List Char} (h : l.all isDigitA = true) :
    pyStrip l = l := by
  have hall : ∀ c ∈ l, isSpacePy c = false := by
    intro c hc
    exact digit_not_space ((List.all_eq_true.mp h) c hc)
  unfold pyStrip
  rw [dropWhile_eq_self_of_head hall]
  rw [dropWhile_eq_self_of_head (by intro c hc; exact hall c (by simpa using hc))]
  simp

theorem digitsValAux_digits :
    ∀ (l : List Char) (acc : Nat), l.all isDigitA = true →
      digitsValAux acc l = some (l.foldl (fun a c => 10 * a + (c.toNat - 48)) acc) := by
  intro l
  induction l with
  | nil => intro acc _; rfl
  | cons c r ih =>
    intro acc h
    simp only [List.all_cons, Bool.and_eq_true] at h
    have step : digitsValAux acc (c :: r) = digitsValAux (10 * acc + (c.toNat - 48)) r := by
      conv_lhs => rw [digitsValAux.eq_def]
      simp only [h.1, if_true]
    rw [step, List.foldl_cons]
    exact ih _ h.2

theorem parseDigitsPy_digits {l : List Char} (hne : l ≠ []) (h : l.all isDigitA = true) :
    parseDigitsPy l = some (digitsToNat l) := by
  cases l with
  | nil => exact absurd rfl hne
  | cons c r =>
    simp only [List.all_cons, Bool.and_eq_true] at h
    simp only [parseDigitsPy, h.1, if_true]
    rw [digitsValAux_digits r _ h.2]
    simp [digitsToNat]

theorem pyInt_digits {l : List Char} (hne : l ≠ []) (h : l.all isDigitA = true) :
    pyInt l = some (digitsToNat l : Int) := by
  cases l with
  | nil => exact absurd rfl hne
  | cons c r =>
    have hd : isDigitA c = true := by
      have := List.all_eq_true.mp h c (by simp)
      simpa using this
    have hstrip : pyStrip (c :: r) = c :: r := pyStrip_of_digits h
    unfold pyInt
    rw [hstrip]
    simp only [digit_ne_plus hd, digit_ne_minus hd, if_false]
    rw [parseDigitsPy_digits (by simp) h]
    rfl

/-! ### Shape of the extracted blood pressure -/

/-- Property carried by every successful `bpAt` match: both captured
runs are non-empty digit strings. -/
def BPShape (p : List Char × List Char) : Prop :=
  p.1 ≠ [] ∧ p.1.all isDigitA = true ∧ p.2 ≠ [] ∧ p.2.all isDigitA = true

theorem bpAt_shape : ∀ cs p, bpAt cs = some p → BPShape p := by
  intro cs p h
  unfold bpAt at h
  rcases hd : dropCI "BP".toList cs with _ | r1
  · rw [hd] at h; cases h
  · rw [hd] at h
    refine greedyPlusBT_some (P := BPShape) ?_ r1 p h
    intro w2 r2 q _ _ h2
    refine greedyPlusBT_some (P := BPShape) ?_ r2 q h2
    intro sys r3 q2 hsysne hsysall h3
    split at h3
    · rename_i r4
      refine greedyPlusBT_some (P := BPShape) ?_ r4 q2 h3
      intro dia r5 q3 hdiane hdiaall h5
      cases h5
      exact ⟨hsysne, hsysall, hdiane, hdiaall⟩
    · cases h3

theorem searchBP_shape {cs : List Char} {p : List Char × List Char}
    (h : searchFrom bpAt cs = some p) : BPShape p :=
  searchFrom_some (fun _ _ hm => bpAt_shape _ _ hm) cs p h

/-! ### Looking up the blood pressure in the vitals dict -/

theorem lookup_optEntry_ne {k k' : String} {v : Option String}
    {rest : List (String × String)} (h : (k == k') = false) :
    List.lookup k (optEntry k' v ++ rest) = List.lookup k rest := by
  cases v with
  | none => rfl
  | some s => simp [optEntry, List.lookup, h]

theorem lookup_optEntry_ne_nil {k k' : String} {v : Option String}
    (h : (k == k') = false) :
    List.lookup k (optEntry k' v) = none := by
  cases v with
  | none => rfl
  | some s => simp [optEntry, List.lookup, h]

theorem lookup_bp_vitals (text : String) :
    List.lookup "Blood Pressure" (extract_vital_signs text) =
      (searchFrom bpAt text.toList).map (fun p => String.mk (p.1 ++ '/' :: p.2)) := by
  unfold extract_vital_signs
  rcases hbp : searchFrom bpAt text.toList with _ | p
  · simp only [Option.map_none']
    rw [show optEntry "Blood Pressure" none = [] from rfl, List.nil_append]
    rw [lookup_optEntry_ne (by decide), lookup_optEntry_ne (by decide),
      lookup_optEntry_ne (by decide), lookup_optEntry_ne_nil (by decide)]
  · simp only [Option.map_some']
    rw [show optEntry "Blood Pressure" (some (String.mk (p.1 ++ '/' :: p.2))) =
      [("Blood Pressure", String.mk (p.1 ++ '/' :: p.2))] from rfl]
    simp [List.lookup]

theorem takeWhile_append_digits {l : List Char} (h : l.all isDigitA = true)
    (r : List Char) :
    (l ++ '/' :: r).takeWhile (fun c => c != '/') = l := by
  induction l with
  | nil => simp [List.takeWhile]
  | cons c t ih =>
    simp only [List.all_cons, Bool.and_eq_true] at h
    simp only [List.cons_append, List.takeWhile_cons, digit_ne_slash h.1, if_true]
    rw [ih h.2]

theorem contains_slash (l r : List Char) : (l ++ '/' :: r).contains '/' = true := by
  induction l with
  | nil => simp
  | cons c t ih => simp_all

/-! ### Characterization of `identify_critical_flags` on pipeline vitals -/

/-- The threshold part of the critical flags, as a function of the
extracted systolic digit run. -/
def bpFlagsOf (bp : Option (List Char × List Char)) : List String :=
  match bp with
  | some (sys, _) =>
    if 140 < digitsToNat sys ∨ digitsToNat sys < 90 then [abnormalBPFlag] else []
  | none => []

theorem identify_pipeline (text : String) (s : MedicalSummary)
    (hv : s.vital_signs = extract_vital_signs text) :
    identify_critical_flags text s =
      Except.ok (vocabScan text.toList ++ bpFlagsOf (searchFrom bpAt text.toList)) := by
  unfold identify_critical_flags
  rw [hv, lookup_bp_vitals]
  rcases hbp : searchFrom bpAt text.toList with _ | ⟨sys, dia⟩
  · simp [bpFlagsOf]
  · have hsh := searchBP_shape hbp
    rcases hsh with ⟨hsysne, hsysall, _, _⟩
    simp only [Option.map_some']
    have htl : (String.mk (sys ++ '/' :: dia)).toList = sys ++ '/' :: dia := rfl
    rw [htl, contains_slash, if_pos rfl]
    rw [takeWhile_append_digits hsysall]
    rw [pyInt_digits hsysne hsysall]
    simp only [bpFlagsOf]
    by_cases hcond : 140 < digitsToNat sys ∨ digitsToNat sys < 90
    · rw [if_pos hcond, if_pos (by exact_mod_cast hcond)]
    · rw [if_neg hcond, if_neg (by exact_mod_cast hcond)]

/-! ### Vocabulary-scan facts -/

theorem toList_eq_data (s : String) : s.toList = s.data := rfl

theorem vocabScan_mem {text : List Char} {t : String} (ht : t ∈ critical_terms)
    (hc : containsL t.toList (lowerL text) = true) :
    vocabFlag t ∈ vocabScan text := by
  unfold vocabScan
  refine List.mem_filterMap.mpr ⟨t, ht, ?_⟩
  rw [toList_eq_data] at hc
  simp [hc]

theorem filterMap_ite_sublist {α β : Type} (p : α → Bool) (f : α → β) :
    ∀ l : List α,
      (l.filterMap fun t => if p t then some (f t) else none).Sublist (l.map f) := by
  intro l
  induction l with
  | nil => simp
  | cons a l ih =>
    by_cases hp : p a
    · simpa [List.filterMap_cons, hp] using ih.cons₂ (f a)
    · simpa [List.filterMap_cons, hp] using ih.cons (f a)

theorem vocabScan_sublist (text : List Char) :
    (vocabScan text).Sublist (critical_terms.map vocabFlag) := by
  unfold vocabScan
  exact filterMap_ite_sublist _ _ _

theorem vocabScan_count_le_one (text : List Char) (f : String) :
    (vocabScan text).count f ≤ 1 := by
  have hnd : (critical_terms.map vocabFlag).Nodup := by decide
  have : (vocabScan text).Nodup := hnd.sublist (vocabScan_sublist text)
  exact List.nodup_iff_count_le_one.mp this f

theorem abnormal_not_vocab {text : List Char} :
    abnormalBPFlag ∉ vocabScan text := by
  intro hmem
  have h1 := (vocabScan_sublist text).subset hmem
  revert h1
  decide

/-! ### Claim theorems -/

/-- C1: for every input string, `summarize_report` terminates and
returns a `MedicalSummary` (modelled as `Except.ok`: the only partial
operation in the pipeline, `int()` on the systolic blood pressure, is
always applied to a digit run produced by the `\d+/\d+` vitals match),
with every field set and the placeholder fields empty. -/
theorem summarize_report_never_raises (text : String) :
    ∃ s, summarize_report text = Except.ok s ∧ s.procedures = [] ∧
      s.allergies = [] ∧ s.recommendations = [] ∧ s.patient_info.dob = "" := by
  simp only [summarize_report]
  rw [identify_pipeline text _ rfl]
  exact ⟨_, rfl, rfl, rfl, rfl, rfl⟩

/-- C9: `summarize_report` is deterministic — two runs on identical
input produce field-for-field identical summaries (the embedding is a
pure function of the input text alone). -/
theorem summarize_report_deterministic :
    ∀ t1 t2 : String, t1 = t2 → ∀ s1 s2 : MedicalSummary,
      summarize_report t1 = Except.ok s1 → summarize_report t2 = Except.ok s2 →
      s1.patient_info = s2.patient_info ∧ s1.chief_complaint = s2.chief_complaint ∧
      s1.diagnosis = s2.diagnosis ∧ s1.medications = s2.medications ∧
      s1.vital_signs = s2.vital_signs ∧ s1.procedures = s2.procedures ∧
      s1.allergies = s2.allergies ∧ s1.lab_results = s2.lab_results ∧
      s1.recommendations = s2.recommendations ∧
      s1.critical_flags = s2.critical_flags := by
  intro t1 t2 ht s1 s2 h1 h2
  subst ht
  rw [h1] at h2
  injection h2 with h
  subst h
  exact ⟨rfl, rfl, rfl, rfl, rfl, rfl, rfl, rfl, rfl, rfl⟩

/-- The summary produced for the empty document. -/
def emptySummary : MedicalSummary :=
  { patient_info := { name := "", age := "", gender := "", mrn := "", dob := "" }
    chief_complaint := ""
    diagnosis := []
    medications := []
    vital_signs := []
    procedures := []
    allergies := []
    lab_results := []
    recommendations := []
    critical_flags := [] }

/-- Witness for C9 at the concrete input `""`. -/
theorem summarize_report_deterministic_witness :
    emptySummary.patient_info = emptySummary.patient_info ∧
    emptySummary.chief_complaint = emptySummary.chief_complaint ∧
    emptySummary.diagnosis = emptySummary.diagnosis ∧
    emptySummary.medications = emptySummary.medications ∧
    emptySummary.vital_signs = emptySummary.vital_signs ∧
    emptySummary.procedures = emptySummary.procedures ∧
    emptySummary.allergies = emptySummary.allergies ∧
    emptySummary.lab_results = emptySummary.lab_results ∧
    emptySummary.recommendations = emptySummary.recommendations ∧
    emptySummary.critical_flags = emptySummary.critical_flags :=
  summarize_report_deterministic "" "" rfl emptySummary emptySummary rfl rfl

/-- C6: the diagnosis list is capped at 10 entries and the medication
list at 15 entries, for every input. -/
theorem extraction_caps (text : String) :
    (extract_diagnoses text).length ≤ 10 ∧
      (extract_medications text).length ≤ 15 := by
  constructor
  · simp only [extract_diagnoses]
    exact List.length_take_le _ _
  · simp only [extract_medications]
    exact List.length_take_le _ _

/-- The full characterization of a pipeline run: the assembled record
with the flags produced by the vocabulary scan and the threshold
check. -/
theorem summarize_eq (text : String) :
    summarize_report text = Except.ok
      { patient_info := extract_patient_info text
        chief_complaint := extract_chief_complaint text
        diagnosis := extract_diagnoses text
        medications := extract_medications text
        vital_signs := extract_vital_signs text
        procedures := []
        allergies := []
        lab_results := extract_lab_results text
        recommendations := []
        critical_flags := vocabScan text.toList ++
          bpFlagsOf (searchFrom bpAt text.toList) } := by
  simp only [summarize_report]
  rw [identify_pipeline text _ rfl]

/-- C3 counterexample: a text that contains `"BP: 150/95"` but whose
first blood-pressure match is `"120/80"`; the map holds `"120/80"`, not
`"150/95"`, and no abnormal flag is emitted, refuting the claim as
stated (its hypothesis `"contains"` is satisfied, its conclusion is
not). -/
theorem bp_claim_counterexample :
    containsL "BP: 150/95".toList "BP: 120/80 BP: 150/95".toList = true ∧
    summarize_report "BP: 120/80 BP: 150/95" =
      Except.ok { emptySummary with
        vital_signs := [("Blood Pressure", "120/80")] } ∧
    ("120/80" : String) ≠ "150/95" := by
  refine ⟨by decide, by rfl, by decide⟩

/-- C3 amended: the blood-pressure value stored is the FIRST match of
the pattern in the document.  When the whole input is `"BP: 150/95"`
the map holds `"150/95"` and the abnormal flag is emitted; for
`"BP: 120/80"` it is not; and in general the abnormal flag appears in
the summary exactly when a blood pressure was extracted and its
systolic value is greater than 140 or less than 90. -/
theorem bp_threshold_amended :
    summarize_report "BP: 150/95" =
      Except.ok { emptySummary with
        vital_signs := [("Blood Pressure", "150/95")]
        critical_flags := [abnormalBPFlag] } ∧
    summarize_report "BP: 120/80" =
      Except.ok { emptySummary with
        vital_signs := [("Blood Pressure", "120/80")] } ∧
    (∀ (text : String) (s : MedicalSummary), summarize_report text = Except.ok s →
      ((searchFrom bpAt text.toList = none ∧ abnormalBPFlag ∉ s.critical_flags) ∨
       (∃ sys dia, searchFrom bpAt text.toList = some (sys, dia) ∧
         (abnormalBPFlag ∈ s.critical_flags ↔
           140 < digitsToNat sys ∨ digitsToNat sys < 90)))) := by
  refine ⟨by rfl, by rfl, ?_⟩
  intro text s h
  rw [summarize_eq text] at h
  injection h with h'
  subst h'
  rcases hbp : searchFrom bpAt text.toList with _ | ⟨sys, dia⟩
  · left
    refine ⟨rfl, ?_⟩
    simp only [hbp, bpFlagsOf, List.append_nil]
    exact abnormal_not_vocab
  · right
    refine ⟨sys, dia, rfl, ?_⟩
    simp only [hbp]
    have hbpf : abnormalBPFlag ∈ bpFlagsOf (some (sys, dia)) ↔
        (140 < digitsToNat sys ∨ digitsToNat sys < 90) := by
      simp only [bpFlagsOf]
      by_cases hc : 140 < digitsToNat sys ∨ digitsToNat sys < 90
      · simp [hc]
      · simp [hc]
    constructor
    · intro hm
      rcases List.mem_append.mp hm with h1 | h2
      · exact absurd h1 abnormal_not_vocab
      · exact hbpf.mp h2
    · intro hc
      exact List.mem_append.mpr (Or.inr (hbpf.mpr hc))

/-- Witness for the general part of the C3 amended theorem at the
concrete input `"BP: 150/95"`. -/
theorem bp_threshold_amended_witness :
    (searchFrom bpAt "BP: 150/95".toList = none ∧
      abnormalBPFlag ∉ ({ emptySummary with
        vital_signs := [("Blood Pressure", "150/95")]
        critical_flags := [abnormalBPFlag] } : MedicalSummary).critical_flags) ∨
    (∃ sys dia, searchFrom bpAt "BP: 150/95".toList = some (sys, dia) ∧
      (abnormalBPFlag ∈ ({ emptySummary with
        vital_signs := [("Blood Pressure", "150/95")]
        critical_flags := [abnormalBPFlag] } : MedicalSummary).critical_flags ↔
        140 < digitsToNat sys ∨ digitsToNat sys < 90)) :=
  bp_threshold_amended.2.2 "BP: 150/95" _ (by rfl)

/-! ### Shapes of the critical-flag list and of the gender capture -/

theorem identify_ok_shape {text : String} {s : MedicalSummary} {flags : List String}
    (h : identify_critical_flags text s = Except.ok flags) :
    flags = vocabScan text.toList ∨
      flags = vocabScan text.toList ++ [abnormalBPFlag] := by
  unfold identify_critical_flags at h
  split at h
  · split at h
    · split at h
      · rename_i sys _
        injection h with h'
        by_cases hc : 140 < sys ∨ sys < 90
        · right; rw [← h']; simp [hc]
        · left; rw [← h']; simp [hc]
      · cases h
    · injection h with h'; left; exact h'.symm
  · injection h with h'; left; exact h'.symm

theorem vocabFlag_ne_abnormal : ∀ t ∈ critical_terms, vocabFlag t ≠ abnormalBPFlag := by
  decide

theorem genderAt_shape : ∀ cs g, genderAt cs = some g →
    lowerL g = "male".toList ∨ lowerL g = "female".toList ∨
      lowerL g = "m".toList ∨ lowerL g = "f".toList := by
  intro cs g h
  unfold genderAt at h
  split at h
  · cases h
  · rename_i r1 _
    refine greedyPlusBT_some
      (P := fun g => lowerL g = "male".toList ∨ lowerL g = "female".toList ∨
        lowerL g = "m".toList ∨ lowerL g = "f".toList) ?_ r1 g h
    intro w rest q _ _ hq
    split at hq
    · rename_i g1 rest1 heq1
      injection hq with hq'
      subst hq'
      left
      rw [takeCI_lower _ _ _ _ heq1]
      decide
    · split at hq
      · rename_i g1 rest1 heq1
        injection hq with hq'
        subst hq'
        right; left
        rw [takeCI_lower _ _ _ _ heq1]
        decide
      · split at hq
        · rename_i g1 rest1 heq1
          injection hq with hq'
          subst hq'
          right; right; left
          rw [takeCI_lower _ _ _ _ heq1]
          decide
        · split at hq
          · rename_i g1 rest1 heq1
            injection hq with hq'
            subst hq'
            right; right; right
            rw [takeCI_lower _ _ _ _ heq1]
            decide
          · cases hq

/-- C5 counterexample: on a document containing "Chest Pain" and
"ACUTE", the emitted flags carry the warning marker, the title-cased
term, and a lower-case " mentioned" suffix — the exact string
"Chest Pain Mentioned" never appears. -/
theorem title_flags_counterexample :
    identify_critical_flags "Chest Pain and ACUTE distress" emptySummary =
      Except.ok [flagMark ++ "Acute mentioned", flagMark ++ "Chest Pain mentioned"] ∧
    ("Chest Pain Mentioned" : String) ∉
      [flagMark ++ "Acute mentioned", flagMark ++ "Chest Pain mentioned"] ∧
    ("Acute Mentioned" : String) ∉
      [flagMark ++ "Acute mentioned", flagMark ++ "Chest Pain mentioned"] :=
  ⟨by rfl, by decide, by decide⟩

/-- C5 amended: vocabulary matching is case-insensitive, and the emitted
flag is the warning marker followed by the title-cased term and the
lower-case word " mentioned" (only the term is title-cased); at most one
flag is emitted per vocabulary term.  On any text containing
"chest pain" and "acute" in any casing, both flags appear. -/
theorem title_flags_amended :
    ∀ (text : String) (s : MedicalSummary) (flags : List String),
      identify_critical_flags text s = Except.ok flags →
      containsL "chest pain".toList (lowerL text.toList) = true →
      containsL "acute".toList (lowerL text.toList) = true →
      (flagMark ++ "Chest Pain mentioned") ∈ flags ∧
      (flagMark ++ "Acute mentioned") ∈ flags ∧
      ∀ t ∈ critical_terms, flags.count (vocabFlag t) ≤ 1 := by
  intro text s flags h hcp hac
  have hcpmem : vocabFlag "chest pain" ∈ vocabScan text.toList :=
    vocabScan_mem (by decide) hcp
  have hacmem : vocabFlag "acute" ∈ vocabScan text.toList :=
    vocabScan_mem (by decide) hac
  have hcpeq : vocabFlag "chest pain" = flagMark ++ "Chest Pain mentioned" := by rfl
  have haceq : vocabFlag "acute" = flagMark ++ "Acute mentioned" := by rfl
  rcases identify_ok_shape h with hf | hf
  · subst hf
    refine ⟨hcpeq ▸ hcpmem, haceq ▸ hacmem, ?_⟩
    intro t _
    exact vocabScan_count_le_one text.toList (vocabFlag t)
  · subst hf
    refine ⟨List.mem_append.mpr (Or.inl (hcpeq ▸ hcpmem)),
      List.mem_append.mpr (Or.inl (haceq ▸ hacmem)), ?_⟩
    intro t ht
    rw [List.count_append]
    have h0 : List.count (vocabFlag t) [abnormalBPFlag] = 0 := by
      simp [List.count_singleton', vocabFlag_ne_abnormal t ht]
    rw [h0]
    simpa using vocabScan_count_le_one text.toList (vocabFlag t)

/-- Witness for C5 at the concrete input "Chest Pain and ACUTE distress". -/
theorem title_flags_amended_witness :
    (flagMark ++ "Chest Pain mentioned") ∈
      [flagMark ++ "Acute mentioned", flagMark ++ "Chest Pain mentioned"] ∧
    (flagMark ++ "Acute mentioned") ∈
      [flagMark ++ "Acute mentioned", flagMark ++ "Chest Pain mentioned"] ∧
    ∀ t ∈ critical_terms,
      List.count (vocabFlag t)
        [flagMark ++ "Acute mentioned", flagMark ++ "Chest Pain mentioned"] ≤ 1 :=
  title_flags_amended "Chest Pain and ACUTE distress" emptySummary
    [flagMark ++ "Acute mentioned", flagMark ++ "Chest Pain mentioned"]
    (by rfl) (by decide) (by decide)

/-- C2: the claim says a malformed blood-pressure value (non-numeric
systolic before the first "/") must not crash `identify_critical_flags`;
the code calls `int()` unguarded, which raises `ValueError`, and the
vocabulary flags that the claim requires to survive (here the
"chest pain" flag) are lost. -/
theorem malformed_bp_raises :
    identify_critical_flags "chest pain"
      { emptySummary with vital_signs := [("Blood Pressure", "abc/95")] } =
      Except.error "ValueError" ∧
    vocabScan "chest pain".toList = [flagMark ++ "Chest Pain mentioned"] :=
  ⟨by rfl, by rfl⟩

/-- C7 counterexample: `re.IGNORECASE` makes the gender alternation
match any casing, and the capture keeps the casing found in the text, so
the field can hold "male", which is neither empty nor one of the four
claimed strings. -/
theorem gender_counterexample :
    (extract_patient_info "Gender: male").gender = "male" ∧
    ("male" : String) ∉ (["", "Male", "Female", "M", "F"] : List String) :=
  ⟨by rfl, by decide⟩

/-- C7 amended: the gender field is either empty or a case-variant of
one of Male, Female, M, F (its lower-casing is one of "male", "female",
"m", "f"). -/
theorem gender_amended (text : String) :
    (extract_patient_info text).gender = "" ∨
      lowerS (extract_patient_info text).gender ∈
        (["male", "female", "m", "f"] : List String) := by
  have hg : (extract_patient_info text).gender =
      (match searchFrom genderAt text.toList with
       | some g => String.mk g
       | none => "") := by
    simp only [extract_patient_info]
  rw [hg]
  rcases hs : searchFrom genderAt text.toList with _ | g
  · left; rfl
  · right
    have hsh := searchFrom_some (fun _ _ hm => genderAt_shape _ _ hm) _ _ hs
    have hls : lowerS (String.mk g) = String.mk (lowerL g) := rfl
    rcases hsh with h1 | h1 | h1 | h1 <;>
      simp [hls, h1, lowerS]

/-- C4: in diagnosis cleaning, a candidate whose stripped form contains
an exclusion-vocabulary word and no medical-indicator word contributes
nothing; and on the block "1. Acute coronary syndrome\n2. Medication
adjustment" the cleaned list keeps exactly the item derived from the
first candidate. -/
theorem diag_exclusion :
    (∀ raw : List Char,
      containsAny exclude_words
        (lowerL (stripBullet (stripNumDot (pyStrip raw)))) = true →
      containsAny medical_indicators
        (lowerL (stripBullet (stripNumDot (pyStrip raw)))) = false →
      processDiagItem raw = none) ∧
    clean_diagnosis_text "1. Acute coronary syndrome\n2. Medication adjustment" =
      ["Acute coronary syndrome"] := by
  constructor
  · intro raw hex hmed
    unfold processDiagItem
    by_cases hlen : (pyStrip raw).length < 5
    · simp [hlen]
    · simp [hlen, hex, hmed]
  · rfl

/-- Witness for the general part of C4 at the dropped candidate. -/
theorem diag_exclusion_witness :
    processDiagItem " Medication adjustment".toList = none :=
  diag_exclusion.1 " Medication adjustment".toList (by decide) (by decide)

/-- C8 counterexample: the medication line path applies no 5-character
minimum; the 3-character candidate "Abc" survives into the medication
list. -/
theorem med_minlen_counterexample :
    extract_medications "Medications: Abc\n\nx" = ["Abc"] ∧
    ("Abc" : String).length < 5 :=
  ⟨by rfl, by decide⟩

/-- C8 amended: a line-based candidate is kept exactly when, after
stripping surrounding whitespace, it is non-empty and does not begin
with a numbered-list marker — there is no minimum-length filter on this
path (the 5-character minimum exists only in diagnosis cleaning), so
candidates shorter than 5 characters can appear in the medication
list. -/
theorem med_line_filter_amended :
    extract_medications "Medications: Abc\n\nx" = ["Abc"] ∧
    (∀ medText : List Char, ∀ l ∈ medLineKept medText,
      l ≠ "" ∧ startsNumDot l.toList = false) ∧
    (∀ medText : List Char, ∀ raw ∈ splitNl medText,
      pyStrip raw ≠ [] → startsNumDot (pyStrip raw) = false →
      String.mk (pyStrip raw) ∈ medLineKept medText) := by
  refine ⟨by rfl, ?_, ?_⟩
  · intro medText l hl
    rcases List.mem_filterMap.mp hl with ⟨raw, _, hcond⟩
    by_cases hc : pyStrip raw ≠ [] ∧ startsNumDot (pyStrip raw) = false
    · rw [if_pos hc] at hcond
      injection hcond with hc'
      subst hc'
      refine ⟨?_, ?_⟩
      · intro habs
        apply hc.1
        have : (String.mk (pyStrip raw)).data = ("" : String).data :=
          congrArg String.data habs
        simpa using this
      · simpa [toList_eq_data] using hc.2
    · rw [if_neg hc] at hcond
      cases hcond
  · intro medText raw hraw h1 h2
    exact List.mem_filterMap.mpr ⟨raw, hraw, by rw [if_pos ⟨h1, h2⟩]⟩

/-- Witness for the membership direction of the C8 amended theorem. -/
theorem med_line_filter_amended_witness :
    String.mk (pyStrip "Abc".toList) ∈ medLineKept "Abc".toList :=
  med_line_filter_amended.2.2 "Abc".toList "Abc".toList (by decide) (by decide)
    (by decide)

/-! ### Ordering of the lab-result list (analyte catalog order) -/

/-- The catalog index of a lab entry, read off the (lower-cased) analyte
name before the colon of its `"Name: value"` output format. -/
def labIdxL (l : List Char) : Nat :=
  if startsWithL "hemoglobin:".toList l || startsWithL "hgb:".toList l then 0
  else if startsWithL "wbc:".toList l ||
    startsWithL "white blood cell:".toList l then 1
  else if startsWithL "glucose:".toList l then 2
  else if startsWithL "creatinine:".toList l then 3
  else if startsWithL "bun:".toList l then 4
  else if startsWithL "cholesterol:".toList l then 5
  else 6

def labIdx (s : String) : Nat := labIdxL (lowerL s.toList)

theorem takeCIalts_mem : ∀ (alts : List String) cs name rest,
    takeCIalts alts cs = some (name, rest) →
    ∃ alt ∈ alts, lowerL name = lowerL alt.toList := by
  intro alts
  induction alts with
  | nil => intro cs name rest h; cases h
  | cons alt alts ih =>
    intro cs name rest h
    simp only [takeCIalts] at h
    rcases ht : takeCI alt.toList cs with _ | ⟨name', rest'⟩
    · rw [ht] at h
      rcases ih cs name rest h with ⟨a, ha, hla⟩
      exact ⟨a, List.mem_cons_of_mem _ ha, hla⟩
    · rw [ht] at h
      injection h with h'
      injection h' with h1 h2
      subst h1
      exact ⟨alt, List.mem_cons_self _ _, takeCI_lower _ _ _ _ ht⟩

/-- Every successful `labAt` match produces an entry formatted as
`name ++ ": " ++ value` where the name is a case-variant of one of the
pattern's alternatives. -/
theorem labAt_shape {alts : List String} {dec : Bool} :
    ∀ cs e rest, labAt alts dec cs = some (e, rest) →
      ∃ name v, e = String.mk (name ++ ':' :: ' ' :: v) ∧
        ∃ alt ∈ alts, lowerL name = lowerL alt.toList := by
  intro cs e rest h
  unfold labAt at h
  rcases ht : takeCIalts alts cs with _ | ⟨name, r1⟩
  · rw [ht] at h; cases h
  · rw [ht] at h
    refine greedyPlusBT_some
      (P := fun q : String × List Char => ∃ name v,
        q.1 = String.mk (name ++ ':' :: ' ' :: v) ∧
        ∃ alt ∈ alts, lowerL name = lowerL alt.toList) ?_ r1 (e, rest) h
    intro w r2 q _ _ hq
    rcases hv : labValue dec r2 with _ | ⟨v, rest'⟩
    · rw [hv] at hq; cases hq
    · rw [hv] at hq
      injection hq with hq'
      subst hq'
      exact ⟨name, v, rfl, takeCIalts_mem alts cs name r1 ht⟩

theorem lowerL_append (a b : List Char) : lowerL (a ++ b) = lowerL a ++ lowerL b :=
  List.map_append lowerCh a b

/-- The index of an entry of pattern `i` is `i`: instantiated for each
of the six catalog patterns. -/
theorem labIdx_entry0 : ∀ cs e rest,
    labAt ["Hemoglobin", "Hgb"] true cs = some (e, rest) → labIdx e = 0 := by
  intro cs e rest h
  rcases labAt_shape cs e rest h with ⟨name, v, he, alt, halt, hla⟩
  subst he
  unfold labIdx
  rw [toList_eq_data]
  show labIdxL (lowerL (name ++ ':' :: ' ' :: v)) = 0
  rw [lowerL_append, hla]
  have halt2 : alt = "Hemoglobin" ∨ alt = "Hgb" := by simpa using halt
  rcases halt2 with h1 | h1 <;> subst h1 <;> rfl

theorem labIdx_entry1 : ∀ cs e rest,
    labAt ["WBC", "White Blood Cell"] true cs = some (e, rest) → labIdx e = 1 := by
  intro cs e rest h
  rcases labAt_shape cs e rest h with ⟨name, v, he, alt, halt, hla⟩
  subst he
  unfold labIdx
  rw [toList_eq_data]
  show labIdxL (lowerL (name ++ ':' :: ' ' :: v)) = 1
  rw [lowerL_append, hla]
  have halt2 : alt = "WBC" ∨ alt = "White Blood Cell" := by simpa using halt
  rcases halt2 with h1 | h1 <;> subst h1 <;> rfl

theorem labIdx_entry2 : ∀ cs e rest,
    labAt ["Glucose"] false cs = some (e, rest) → labIdx e = 2 := by
  intro cs e rest h
  rcases labAt_shape cs e rest h with ⟨name, v, he, alt, halt, hla⟩
  subst he
  unfold labIdx
  rw [toList_eq_data]
  show labIdxL (lowerL (name ++ ':' :: ' ' :: v)) = 2
  rw [lowerL_append, hla]
  have h2 := List.mem_singleton.mp halt
  subst h2; rfl

theorem labIdx_entry3 : ∀ cs e rest,
    labAt ["Creatinine"] true cs = some (e, rest) → labIdx e = 3 := by
  intro cs e rest h
  rcases labAt_shape cs e rest h with ⟨name, v, he, alt, halt, hla⟩
  subst he
  unfold labIdx
  rw [toList_eq_data]
  show labIdxL (lowerL (name ++ ':' :: ' ' :: v)) = 3
  rw [lowerL_append, hla]
  have h2 := List.mem_singleton.mp halt
  subst h2; rfl

theorem labIdx_entry4 : ∀ cs e rest,
    labAt ["BUN"] false cs = some (e, rest) → labIdx e = 4 := by
  intro cs e rest h
  rcases labAt_shape cs e rest h with ⟨name, v, he, alt, halt, hla⟩
  subst he
  unfold labIdx
  rw [toList_eq_data]
  show labIdxL (lowerL (name ++ ':' :: ' ' :: v)) = 4
  rw [lowerL_append, hla]
  have h2 := List.mem_singleton.mp halt
  subst h2; rfl

theorem labIdx_entry5 : ∀ cs e rest,
    labAt ["Cholesterol"] false cs = some (e, rest) → labIdx e = 5 := by
  intro cs e rest h
  rcases labAt_shape cs e rest h with ⟨name, v, he, alt, halt, hla⟩
  subst he
  unfold labIdx
  rw [toList_eq_data]
  show labIdxL (lowerL (name ++ ':' :: ' ' :: v)) = 5
  rw [lowerL_append, hla]
  have h2 := List.mem_singleton.mp halt
  subst h2; rfl

theorem sorted_of_const {l : List Nat} {i : Nat} (h : ∀ x ∈ l, x = i) :
    l.Sorted (· ≤ ·) := by
  induction l with
  | nil => simp
  | cons a t ih =>
    rw [List.sorted_cons]
    refine ⟨?_, ih (fun x hx => h x (List.mem_cons_of_mem _ hx))⟩
    intro b hb
    rw [h a (List.mem_cons_self _ _), h b (List.mem_cons_of_mem _ hb)]

theorem sorted_const_append {i : Nat} (l rest : List Nat)
    (hl : ∀ x ∈ l, x = i) (hrest : rest.Sorted (· ≤ ·))
    (hge : ∀ x ∈ rest, i ≤ x) :
    ((l ++ rest).Sorted (· ≤ ·)) ∧ (∀ x ∈ l ++ rest, i ≤ x) := by
  constructor
  · rw [List.Sorted, List.pairwise_append]
    refine ⟨sorted_of_const hl, hrest, ?_⟩
    intro a ha b hb
    rw [hl a ha]
    exact hge b hb
  · intro x hx
    rcases List.mem_append.mp hx with h | h
    · rw [hl x h]
    · exact hge x h

/-- C10: the lab-result list is ordered by the fixed analyte catalog
(the catalog index of consecutive entries never decreases), not by
document order across analytes; within one analyte's group the
occurrences keep document order, as the concrete example shows (the two
hemoglobin readings stay in document order and precede the glucose
reading that occurs first in the document). -/
theorem lab_results_catalog_order :
    (∀ text : String,
      List.Sorted (· ≤ ·) ((extract_lab_results text).map labIdx)) ∧
    extract_lab_results "Glucose: 100 Hgb: 12 Hemoglobin: 13" =
      ["Hgb: 12", "Hemoglobin: 13", "Glucose: 100"] := by
  constructor
  · intro text
    simp only [extract_lab_results, lab_patterns, List.map_cons, List.map_nil,
      List.flatten_cons, List.flatten_nil, List.append_nil, List.map_append]
    have m0 : ∀ x ∈ (findAll (labAt ["Hemoglobin", "Hgb"] true)
        (text.toList.length + 1) text.toList).map labIdx, x = 0 := by
      intro x hx
      rcases List.mem_map.mp hx with ⟨e, he, hxe⟩
      subst hxe
      exact findAll_mem (fun cs a rest hm => labIdx_entry0 cs a rest hm) _ _ _ he
    have m1 : ∀ x ∈ (findAll (labAt ["WBC", "White Blood Cell"] true)
        (text.toList.length + 1) text.toList).map labIdx, x = 1 := by
      intro x hx
      rcases List.mem_map.mp hx with ⟨e, he, hxe⟩
      subst hxe
      exact findAll_mem (fun cs a rest hm => labIdx_entry1 cs a rest hm) _ _ _ he
    have m2 : ∀ x ∈ (findAll (labAt ["Glucose"] false)
        (text.toList.length + 1) text.toList).map labIdx, x = 2 := by
      intro x hx
      rcases List.mem_map.mp hx with ⟨e, he, hxe⟩
      subst hxe
      exact findAll_mem (fun cs a rest hm => labIdx_entry2 cs a rest hm) _ _ _ he
    have m3 : ∀ x ∈ (findAll (labAt ["Creatinine"] true)
        (text.toList.length + 1) text.toList).map labIdx, x = 3 := by
      intro x hx
      rcases List.mem_map.mp hx with ⟨e, he, hxe⟩
      subst hxe
      exact findAll_mem (fun cs a rest hm => labIdx_entry3 cs a rest hm) _ _ _ he
    have m4 : ∀ x ∈ (findAll (labAt ["BUN"] false)
        (text.toList.length + 1) text.toList).map labIdx, x = 4 := by
      intro x hx
      rcases List.mem_map.mp hx with ⟨e, he, hxe⟩
      subst hxe
      exact findAll_mem (fun cs a rest hm => labIdx_entry4 cs a rest hm) _ _ _ he
    have m5 : ∀ x ∈ (findAll (labAt ["Cholesterol"] false)
        (text.toList.length + 1) text.toList).map labIdx, x = 5 := by
      intro x hx
      rcases List.mem_map.mp hx with ⟨e, he, hxe⟩
      subst hxe
      exact findAll_mem (fun cs a rest hm => labIdx_entry5 cs a rest hm) _ _ _ he
    have s4 := sorted_const_append _ _ m4 (sorted_of_const m5)
      (fun x hx => by rw [m5 x hx]; omega)
    have s3 := sorted_const_append _ _ m3 s4.1
      (fun x hx => le_trans (by omega) (s4.2 x hx))
    have s2 := sorted_const_append _ _ m2 s3.1
      (fun x hx => le_trans (by omega) (s3.2 x hx))
    have s1 := sorted_const_append _ _ m1 s2.1
      (fun x hx => le_trans (by omega) (s2.2 x hx))
    have s0 := sorted_const_append _ _ m0 s1.1
      (fun x hx => le_trans (by omega) (s1.2 x hx))
    exact s0.1
  · rfl
